import Mathlib

/-!
Shallow embedding of the async-linux-spec-fd crate.

Machine integers (`c_int`, `pid_t`, `uid_t`, ...) are modelled as their
32-bit twos-complement bit patterns, i.e. natural numbers, with the one
signed cast that matters (`as i8` inside `WIFSIGNALED`) made explicit.
Fallible Rust code returns `Except`/`Option`; panics (`unwrap`) are a
dedicated `none`/constructor.  Kernel calls and the async runtime are
modelled as explicit oracles: a value of an oracle type records what the
kernel or the concurrent map answered at each call site, and the embedded
function computes exactly what the Rust control flow does with those
answers.
-/

/-- Reinterpretation of the low 8 bits of a bit pattern as a signed byte,
as performed by the Rust cast `as i8`. -/
def toI8 (n : Nat) : Int :=
  if n % 256 < 128 then ((n % 256 : Nat) : Int)
  else ((n % 256 : Nat) : Int) - 256

/-- Linux libc WIFEXITED: the expression `(status & 0x7f) == 0`. -/
def WIFEXITED (status : Nat) : Bool :=
  (status &&& 0x7f) == 0

/-- Linux libc WEXITSTATUS: the expression `(status >> 8) & 0xff`. -/
def WEXITSTATUS (status : Nat) : Nat :=
  (status >>> 8) &&& 0xff

/-- Linux libc WTERMSIG: the expression `status & 0x7f`. -/
def WTERMSIG (status : Nat) : Nat :=
  status &&& 0x7f

/-- Linux libc WIFSIGNALED: the expression
`(((status & 0x7f) + 1) as i8) >> 1 > 0`; the arithmetic right shift of a
signed byte by one bit is floor division by two. -/
def WIFSIGNALED (status : Nat) : Bool :=
  decide (0 < Int.fdiv (toI8 ((status &&& 0x7f) + 1)) 2)

/-- Signal enum from src/signal.rs, re-exported by src/signal_fd.rs. -/
inductive Signal where
  | Sigchld
  | Sigcont
  | Sigtstp
  | Sigttin
  | Sigttou
  | Sigurg
  | Sigwinch
  | Sigabrt
  | Sigalrm
  | Sigbus
  | Sigfpe
  | Sighup
  | Sigill
  | Sigint
  | Sigio
  | Sigkill
  | Sigpipe
  | Sigprof
  | Sigpwr
  | Sigquit
  | Sigsegv
  | Sigsys
  | Sigterm
  | Sigtrap
  | Sigusr1
  | Sigusr2
  | Sigvtalrm
  | Sigxcpu
  | Sigxfsz
deriving DecidableEq, Repr

/-- Discriminant of each `Signal` variant: the Linux x86_64 signal number
assigned in src/signal.rs via `libc::SIG*`. -/
def Signal.toNat : Signal → Nat
  | .Sigchld => 17
  | .Sigcont => 18
  | .Sigtstp => 20
  | .Sigttin => 21
  | .Sigttou => 22
  | .Sigurg => 23
  | .Sigwinch => 28
  | .Sigabrt => 6
  | .Sigalrm => 14
  | .Sigbus => 7
  | .Sigfpe => 8
  | .Sighup => 1
  | .Sigill => 4
  | .Sigint => 2
  | .Sigio => 29
  | .Sigkill => 9
  | .Sigpipe => 13
  | .Sigprof => 27
  | .Sigpwr => 30
  | .Sigquit => 3
  | .Sigsegv => 11
  | .Sigsys => 31
  | .Sigterm => 15
  | .Sigtrap => 5
  | .Sigusr1 => 10
  | .Sigusr2 => 12
  | .Sigvtalrm => 26
  | .Sigxcpu => 24
  | .Sigxfsz => 25

/-- TryFromPrimitive for `Signal` (derived in src/signal.rs): recover the
variant from the signal number, failing on numbers with no variant. -/
def Signal.tryFrom : Nat → Option Signal
  | 17 => some .Sigchld
  | 18 => some .Sigcont
  | 20 => some .Sigtstp
  | 21 => some .Sigttin
  | 22 => some .Sigttou
  | 23 => some .Sigurg
  | 28 => some .Sigwinch
  | 6 => some .Sigabrt
  | 14 => some .Sigalrm
  | 7 => some .Sigbus
  | 8 => some .Sigfpe
  | 1 => some .Sighup
  | 4 => some .Sigill
  | 2 => some .Sigint
  | 29 => some .Sigio
  | 9 => some .Sigkill
  | 13 => some .Sigpipe
  | 27 => some .Sigprof
  | 30 => some .Sigpwr
  | 3 => some .Sigquit
  | 11 => some .Sigsegv
  | 31 => some .Sigsys
  | 15 => some .Sigterm
  | 5 => some .Sigtrap
  | 10 => some .Sigusr1
  | 12 => some .Sigusr2
  | 26 => some .Sigvtalrm
  | 24 => some .Sigxcpu
  | 25 => some .Sigxfsz
  | _ => none

/-- ChildTermSignal enum from src/children_reaper.rs: the signals that may
terminate a child, with their Linux x86_64 numbers. -/
inductive ChildTermSignal where
  | Sigabrt
  | Sigalrm
  | Sigbus
  | Sigfpe
  | Sighup
  | Sigill
  | Sigint
  | Sigio
  | Sigkill
  | Sigpipe
  | Sigprof
  | Sigpwr
  | Sigquit
  | Sigsegv
  | Sigsys
  | Sigterm
  | Sigtrap
  | Sigusr1
  | Sigusr2
  | Sigvtalrm
  | Sigxcpu
  | Sigxfsz
deriving DecidableEq, Repr

/-- Discriminant of each `ChildTermSignal` variant. -/
def ChildTermSignal.toNat : ChildTermSignal → Nat
  | .Sigabrt => 6
  | .Sigalrm => 14
  | .Sigbus => 7
  | .Sigfpe => 8
  | .Sighup => 1
  | .Sigill => 4
  | .Sigint => 2
  | .Sigio => 29
  | .Sigkill => 9
  | .Sigpipe => 13
  | .Sigprof => 27
  | .Sigpwr => 30
  | .Sigquit => 3
  | .Sigsegv => 11
  | .Sigsys => 31
  | .Sigterm => 15
  | .Sigtrap => 5
  | .Sigusr1 => 10
  | .Sigusr2 => 12
  | .Sigvtalrm => 26
  | .Sigxcpu => 24
  | .Sigxfsz => 25

/-- TryFromPrimitive for `ChildTermSignal` (derived in
src/children_reaper.rs). -/
def ChildTermSignal.tryFrom : Nat → Option ChildTermSignal
  | 6 => some .Sigabrt
  | 14 => some .Sigalrm
  | 7 => some .Sigbus
  | 8 => some .Sigfpe
  | 1 => some .Sighup
  | 4 => some .Sigill
  | 2 => some .Sigint
  | 29 => some .Sigio
  | 9 => some .Sigkill
  | 13 => some .Sigpipe
  | 27 => some .Sigprof
  | 30 => some .Sigpwr
  | 3 => some .Sigquit
  | 11 => some .Sigsegv
  | 31 => some .Sigsys
  | 15 => some .Sigterm
  | 5 => some .Sigtrap
  | 10 => some .Sigusr1
  | 12 => some .Sigusr2
  | 26 => some .Sigvtalrm
  | 24 => some .Sigxcpu
  | 25 => some .Sigxfsz
  | _ => none

/-- Fields of `libc::siginfo_t` that the crate reads after a `waitid`
call: pid, uid, status, code, and the two clock fields. -/
structure siginfo_t where
  si_pid : Nat
  si_uid : Nat
  si_status : Nat
  si_code : Nat
  si_utime : Nat
  si_stime : Nat
deriving DecidableEq, Repr

/-- The value of `libc::CLD_EXITED` on Linux. -/
def CLD_EXITED : Nat := 1

/-- The value of `libc::CLD_KILLED` on Linux. -/
def CLD_KILLED : Nat := 2

/-- Kernel behaviour of one invocation of `libc::waitid`: the raw return
value, the errno that `Error::last_os_error()` would observe when the
return value is negative, and the `siginfo_t` the kernel wrote. -/
structure WaitidCall where
  ret : Int
  errno : Int
  info : siginfo_t
deriving DecidableEq, Repr

namespace children_reaper

/-- Wrapper `waitid` from src/children_reaper.rs lines 15-33: a negative
raw return yields the last OS error; otherwise a zeroed `si_pid` field
yields no record and a nonzero one yields the raw record. -/
def waitid (c : WaitidCall) : Except Int (Option siginfo_t) :=
  if c.ret < 0 then .error c.errno
  else if c.info.si_pid == 0 then .ok none
  else .ok (some c.info)

end children_reaper

namespace pid_fd

/-- Wrapper `waitid` from src/pid_fd.rs lines 15-33, textually identical
to the one in src/children_reaper.rs. -/
def waitid (c : WaitidCall) : Except Int (Option siginfo_t) :=
  if c.ret < 0 then .error c.errno
  else if c.info.si_pid == 0 then .ok none
  else .ok (some c.info)

end pid_fd

namespace children_reaper

/-- ExitInfo from src/children_reaper.rs lines 140-150: uid, the raw
status word as stored, and the two consumed-time fields. -/
structure ExitInfo where
  uid : Nat
  wstatus : Nat
  utime : Nat
  stime : Nat
deriving DecidableEq, Repr

/-- Method `get_exit_status` (children_reaper.rs lines 169-175): the exit
status when `libc::WIFEXITED` holds of the stored status, else nothing. -/
def ExitInfo.get_exit_status (e : ExitInfo) : Option Nat :=
  if WIFEXITED e.wstatus then some (WEXITSTATUS e.wstatus) else none

/-- Method `get_term_sig` (children_reaper.rs lines 178-186): when
`libc::WIFSIGNALED` holds of the stored status, the variant recovered from
`WTERMSIG`.  The source unwraps the conversion, panicking when the number
has no `ChildTermSignal` variant; that panic is modelled as `none` here,
which is sound for every claim below because it only makes the result of
this accessor less often `some`. -/
def ExitInfo.get_term_sig (e : ExitInfo) : Option ChildTermSignal :=
  if WIFSIGNALED e.wstatus then ChildTermSignal.tryFrom (WTERMSIG e.wstatus)
  else none

/-- Construction of the ExitInfo inserted by the reap loop
(children_reaper.rs lines 89-94): uid, status, utime and stime are copied
from the `siginfo_t` the kernel returned. -/
def ExitInfo.ofSiginfo (s : siginfo_t) : ExitInfo :=
  { uid := s.si_uid, wstatus := s.si_status
    utime := s.si_utime, stime := s.si_stime }

/-- The Pending-Wait Registry `WaitMap<Pid, ExitInfo>` as an association
list; the head is the most recent insertion, so `lookup` sees the newest
entry for a key, matching overwrite-on-insert map semantics. -/
abbrev RegMap := List (Nat × ExitInfo)

/-- Map insertion `WaitMap::insert`, keyed by pid. -/
def RegMap.insert (m : RegMap) (pid : Nat) (info : ExitInfo) : RegMap :=
  (pid, info) :: m

/-- Map lookup for a pid. -/
def RegMap.lookup (m : RegMap) (pid : Nat) : Option ExitInfo :=
  List.lookup pid m

/-- WaitMap::wait from the external waitmap crate, modelled from the doc
comment of `Reaper` (children_reaper.rs lines 44-49): resolving the wait
does not remove or change the entry; it yields the current entry for the
key, or `none` on the spurious resolutions the crate is known for.  The
Boolean argument says whether this particular resolution is spurious. -/
def WaitMap.wait (m : RegMap) (pid : Nat) (spurious : Bool) :
    Option ExitInfo :=
  if spurious then none else m.lookup pid

/-- Method `Reaper::wait` (children_reaper.rs lines 102-110): loop on
`self.map.wait(&pid).await`, breaking with the value on `Some` and
retrying on `None`.  The oracle `script` gives, for each successive
resolution of the underlying wait, whether it is spurious.  The result is
the value returned together with the registry as left behind; a `none`
result means the call is still suspended when the oracle runs out. -/
def Reaper.wait (m : RegMap) (pid : Nat) :
    List Bool → Option ExitInfo × RegMap
  | [] => (none, m)
  | b :: rest =>
    match WaitMap.wait m pid b with
    | some v => (some v, m)
    | none => Reaper.wait m pid rest

/-- Observable actions of the background reap loop: a read of the signal
descriptor, an invocation of the `waitid` Wait Primitive, and an insertion
into the registry. -/
inductive Action where
  | sigRead
  | waitidCall
  | insert (pid : Nat) (info : ExitInfo)
deriving DecidableEq, Repr

/-- Kernel behaviour during one iteration of the outer reap loop
(children_reaper.rs lines 75-97): the outcome of `signal_fd.read()`, the
records that the successive `waitid(P_ALL, 0, WEXITED | WNOHANG)` calls of
the inner drain loop returned as `Ok(Some(_))` in order, and the outcome
of the drain-terminating call: `.ok ()` when it returned `Ok(None)` and
`.error e` when it failed. -/
structure WakeCycle where
  sigRead : Except Int Unit
  zombies : List siginfo_t
  drainEnd : Except Int Unit
deriving Repr

/-- Registry contents after the inner drain loop has inserted one entry
per drained record, keyed by the pid the kernel reported in the record
(children_reaper.rs lines 86-96). -/
def drainMap (m : RegMap) : List siginfo_t → RegMap
  | [] => m
  | s :: rest => drainMap (m.insert s.si_pid (ExitInfo.ofSiginfo s)) rest

/-- Action trace of the inner drain loop: one `waitid` call per drained
record, each followed by its insertion, and one final `waitid` call that
ends the loop (returning `Ok(None)` or an error). -/
def drainActs : List siginfo_t → List Action
  | [] => [.waitidCall]
  | s :: rest =>
    .waitidCall :: .insert s.si_pid (ExitInfo.ofSiginfo s) :: drainActs rest

/-- The background loop `Reaper::reap` (children_reaper.rs lines 70-100)
run against a script of wake cycles; the script ending corresponds to the
`Arc::strong_count` guard stopping the loop.  Returns the final registry,
the trace of performed actions, and the outcome of the `async fn`: any
error of `signal_fd.read()` or of a `waitid` call propagates through `?`
and ends the function immediately. -/
def Reaper.reapRun (m : RegMap) :
    List WakeCycle → RegMap × List Action × Except Int Unit
  | [] => (m, [], .ok ())
  | c :: rest =>
    match c.sigRead with
    | .error e => (m, [.sigRead], .error e)
    | .ok _ =>
      match c.drainEnd with
      | .error e =>
        (drainMap m c.zombies, .sigRead :: drainActs c.zombies, .error e)
      | .ok _ =>
        let r := Reaper.reapRun (drainMap m c.zombies) rest
        (r.1, .sigRead :: (drainActs c.zombies ++ r.2.1), r.2.2)

end children_reaper

namespace pid_fd

/-- ExitCode from src/pid_fd.rs lines 130-134. -/
inductive ExitCode where
  | Killed (sig : Signal)
  | Exited (code : Nat)
deriving DecidableEq, Repr

/-- ExitInfo from src/pid_fd.rs lines 136-142. -/
structure ExitInfo where
  uid : Nat
  code : ExitCode
deriving DecidableEq, Repr

/-- Constructor `ExitInfo::new` (pid_fd.rs lines 146-160): a record whose
`si_code` equals `CLD_EXITED` decodes to `Exited(si_status)`; any other
code decodes to `Killed` of the signal recovered from `si_status`.  The
source unwraps that conversion, panicking on a number with no `Signal`
variant; the panic is modelled as `none`. -/
def ExitInfo.new (si : siginfo_t) : Option ExitInfo :=
  if si.si_code == CLD_EXITED then
    some { uid := si.si_uid, code := .Exited si.si_status }
  else
    (Signal.tryFrom si.si_status).map
      fun s => { uid := si.si_uid, code := .Killed s }

/-- Possible outcomes of `PidFd::waitpid`: a decoded record, an IO error
propagated through `?`, or a panic of one of the two `unwrap` calls. -/
inductive WaitpidOutcome where
  | ok (info : ExitInfo)
  | err (e : Int)
  | panicked
deriving DecidableEq, Repr

/-- Method `PidFd::waitpid` (pid_fd.rs lines 118-127): first
`wait_for_terminate` (its outcome is the oracle `term`), then one
`waitid(P_PIDFD, pidfd, WEXITED | WNOHANG)` call (kernel behaviour given
by `call`), whose `Option` result is unwrapped — a `None` is a panic, not
a returned value — and decoded by `ExitInfo::new`. -/
def PidFd.waitpid (term : Except Int Unit) (call : WaitidCall) :
    WaitpidOutcome :=
  match term with
  | .error e => .err e
  | .ok _ =>
    match waitid call with
    | .error e => .err e
    | .ok none => .panicked
    | .ok (some si) =>
      match ExitInfo.new si with
      | some info => .ok info
      | none => .panicked

end pid_fd

/-- The IO error kinds the crate distinguishes: `ErrorKind::Interrupted`
and everything else, the latter carrying its OS error code. -/
inductive ErrorKind where
  | interrupted
  | other (code : Int)
deriving DecidableEq, Repr

/-- Decidable equality for `Except`, used to evaluate the embedded
fallible functions on concrete inputs. -/
instance exceptDecEq {e a : Type} [DecidableEq e] [DecidableEq a] :
    DecidableEq (Except e a) := fun x y =>
  match x, y with
  | .ok u, .ok v =>
    if h : u = v then isTrue (by rw [h])
    else isFalse (by intro hh; cases hh; exact h rfl)
  | .ok _, .error _ => isFalse (fun hh => Except.noConfusion hh)
  | .error _, .ok _ => isFalse (fun hh => Except.noConfusion hh)
  | .error u, .error v =>
    if h : u = v then isTrue (by rw [h])
    else isFalse (by intro hh; cases hh; exact h rfl)

/-- Function `autorestart` from src/utility.rs lines 4-19: call `f`,
retry while the result is an error of kind Interrupted, and return the
first result that is not.  The oracle lists the result of each successive
invocation of `f`; a `none` return means the loop is still running when
the oracle is exhausted. -/
def autorestart {T : Type} :
    List (Except ErrorKind T) → Option (Except ErrorKind T)
  | [] => none
  | r :: rest =>
    match r with
    | .error .interrupted => autorestart rest
    | r => some r

/-- Kernel behaviour of one raw `libc::read` call: the raw return value
and the error kind `Error::last_os_error()` would carry when the return
value is negative. -/
structure RawReadCall where
  ret : Int
  errno : ErrorKind
deriving DecidableEq, Repr

/-- The closure body inside `Fd::read` (fd.rs lines 37-46): a negative
raw return becomes the last OS error, otherwise the count is returned. -/
def rawRead (c : RawReadCall) : Except ErrorKind Nat :=
  if c.ret < 0 then .error c.errno else .ok c.ret.toNat

/-- Method `Fd::read` (fd.rs lines 33-47): the closure above run under
`autorestart`, the oracle listing the kernel behaviour of each successive
raw read call. -/
def Fd.read (calls : List RawReadCall) : Option (Except ErrorKind Nat) :=
  autorestart (calls.map rawRead)

/-- TerminationCause of the spec data model, with signals taken to their
numeric value so that the two components can be compared. -/
inductive TerminationCause where
  | NormalExit (code : Nat)
  | KilledBySignal (sig : Nat)
deriving DecidableEq, Repr

/-- Classification a raw kernel record receives through the Reaping
Station: the record is stored via `ExitInfo.ofSiginfo` and then read back
through `get_exit_status` and `get_term_sig`. -/
def reaperClassification (si : siginfo_t) : Option TerminationCause :=
  let e := children_reaper.ExitInfo.ofSiginfo si
  match e.get_exit_status with
  | some code => some (.NormalExit code)
  | none =>
    match e.get_term_sig with
    | some s => some (.KilledBySignal s.toNat)
    | none => none

/-- Classification a raw kernel record receives through the Per-Child
Wait Handle, via `ExitInfo::new`. -/
def pidfdClassification (si : siginfo_t) : Option TerminationCause :=
  match pid_fd.ExitInfo.new si with
  | some info =>
    match info.code with
    | .Exited c => some (.NormalExit c)
    | .Killed s => some (.KilledBySignal s.toNat)
  | none => none

theorem WIFEXITED_not_WIFSIGNALED (status : Nat)
    (h : WIFEXITED status = true) : WIFSIGNALED status = false := by
  simp only [WIFEXITED, beq_iff_eq] at h
  unfold WIFSIGNALED
  rw [h]
  decide

/-- C10: the two classification predicates on the stored raw status are
mutually exclusive: for every Reaping Station ExitInfo, the accessors
get_exit_status and get_term_sig never both return a value. -/
theorem exitinfo_classification_exclusive (e : children_reaper.ExitInfo) :
    ((e.get_exit_status).isSome && (e.get_term_sig).isSome) = false := by
  unfold children_reaper.ExitInfo.get_exit_status
    children_reaper.ExitInfo.get_term_sig
  by_cases h : WIFEXITED e.wstatus = true
  · rw [WIFEXITED_not_WIFSIGNALED e.wstatus h]
    simp [h]
  · simp [h]

/-- C9: the Wait Primitive wrapper returns no record exactly when the
kernel call succeeds with a zero si_pid field, returns the raw record
exactly when it succeeds with a nonzero si_pid field, and returns an
error carrying the platform last-error code exactly when the kernel call
returns a negative value; the reap-any-child and the reap-by-descriptor
instantiations are the same function of the kernel outcome. -/
theorem waitid_outcome_spec (c : WaitidCall) :
    (children_reaper.waitid c = .ok none ↔
      0 ≤ c.ret ∧ c.info.si_pid = 0) ∧
    (children_reaper.waitid c = .ok (some c.info) ↔
      0 ≤ c.ret ∧ c.info.si_pid ≠ 0) ∧
    (children_reaper.waitid c = .error c.errno ↔ c.ret < 0) ∧
    pid_fd.waitid c = children_reaper.waitid c := by
  unfold children_reaper.waitid pid_fd.waitid
  split_ifs with h1 h2 <;> simp_all

theorem waitid_outcome_spec_witness :
    children_reaper.waitid ⟨0, 5, ⟨0, 0, 0, 0, 0, 0⟩⟩ = .ok none :=
  (waitid_outcome_spec ⟨0, 5, ⟨0, 0, 0, 0, 0, 0⟩⟩).1.mpr (by decide)

/-- C1: the two exit-record decoders disagree on the raw kernel record of
a child that exited normally with status 7 (si_code CLD_EXITED,
si_status 7): the Per-Child Wait Handle decodes NormalExit 7, while the
Reaping Station accessors classify the same record as KilledBySignal 7,
because they apply the waitpid-style status macros to the already-decoded
si_status field that waitid reports. -/
theorem reaper_pidfd_decoders_disagree :
    pidfdClassification ⟨42, 0, 7, 1, 0, 0⟩ =
      some (.NormalExit 7) ∧
    reaperClassification ⟨42, 0, 7, 1, 0, 0⟩ =
      some (.KilledBySignal 7) ∧
    reaperClassification ⟨42, 0, 7, 1, 0, 0⟩ ≠
      pidfdClassification ⟨42, 0, 7, 1, 0, 0⟩ := by
  decide

/-- C2: evaluation of both decoders on the two record shapes of the
claim: a normal exit with status 7 decodes to NormalExit 7 on the
Per-Child Wait Handle path but not on the Reaping Station path, while a
child killed by SIGKILL (si_code CLD_KILLED, si_status 9) decodes to
KilledBySignal 9 on both paths. -/
theorem exit7_sigkill_decoding_eval :
    pidfdClassification ⟨42, 0, 7, 1, 0, 0⟩ =
      some (.NormalExit 7) ∧
    reaperClassification ⟨42, 0, 7, 1, 0, 0⟩ ≠
      some (.NormalExit 7) ∧
    pidfdClassification ⟨43, 0, 9, 2, 0, 0⟩ =
      some (.KilledBySignal 9) ∧
    reaperClassification ⟨43, 0, 9, 2, 0, 0⟩ =
      some (.KilledBySignal 9) := by
  decide

theorem autorestart_cons_interrupted {T : Type}
    (rest : List (Except ErrorKind T)) :
    autorestart (.error .interrupted :: rest) = autorestart rest := rfl

theorem autorestart_cons_not_interrupted {T : Type}
    (r : Except ErrorKind T) (rest : List (Except ErrorKind T))
    (h : r ≠ .error .interrupted) : autorestart (r :: rest) = some r := by
  cases r with
  | ok v => rfl
  | error k =>
    cases k with
    | interrupted => exact absurd rfl h
    | other c => rfl

/-- C6: for every M, when the underlying raw read call fails with the
Interrupted error kind exactly M times and the next call has any other
outcome, Fd.read returns that outcome; and Fd.read never returns an
error of kind Interrupted to its caller. -/
theorem fd_read_retry_transparent (intrs : List RawReadCall)
    (final : RawReadCall) (rest : List RawReadCall)
    (hi : ∀ c ∈ intrs, rawRead c = .error .interrupted)
    (hf : rawRead final ≠ .error .interrupted) :
    Fd.read (intrs ++ final :: rest) = some (rawRead final) ∧
    ∀ (calls : List RawReadCall) (r : Except ErrorKind Nat),
      Fd.read calls = some r → r ≠ .error .interrupted := by
  constructor
  · induction intrs with
    | nil =>
      simpa [Fd.read] using
        autorestart_cons_not_interrupted (rawRead final) _ hf
    | cons c cs ih =>
      have hc : rawRead c = .error .interrupted := hi c (by simp)
      have ih2 := ih (fun c2 hc2 => hi c2 (by simp [hc2]))
      simp only [Fd.read, List.cons_append, List.map_cons] at ih2 ⊢
      rw [hc, autorestart_cons_interrupted]
      exact ih2
  · intro calls r h
    induction calls with
    | nil => simp [Fd.read, autorestart] at h
    | cons c cs ih =>
      by_cases hc : rawRead c = .error .interrupted
      · apply ih
        simpa [Fd.read, List.map_cons, hc,
          autorestart_cons_interrupted] using h
      · have hstop := autorestart_cons_not_interrupted (rawRead c)
          (cs.map rawRead) hc
        simp only [Fd.read, List.map_cons, hstop, Option.some.injEq] at h
        exact h ▸ hc

theorem fd_read_retry_transparent_witness :
    Fd.read [⟨-1, .interrupted⟩, ⟨5, .interrupted⟩] = some (.ok 5) :=
  (fd_read_retry_transparent [⟨-1, .interrupted⟩] ⟨5, .interrupted⟩ []
    (by decide) (by decide)).1

namespace children_reaper

theorem RegMap.lookup_insert (m : RegMap) (p q : Nat) (i : ExitInfo) :
    (m.insert p i).lookup q = if q = p then some i else m.lookup q := by
  by_cases h : q = p
  · simp [RegMap.insert, RegMap.lookup, List.lookup, h]
  · have hb : (q == p) = false := by simp [h]
    simp [RegMap.insert, RegMap.lookup, List.lookup, h, hb]

theorem drainMap_preserves (zs : List siginfo_t) (m : RegMap) (p : Nat)
    (h : (m.lookup p).isSome = true) :
    ((drainMap m zs).lookup p).isSome = true := by
  induction zs generalizing m with
  | nil => exact h
  | cons z rest ih =>
    apply ih
    rw [RegMap.lookup_insert]
    by_cases hq : p = z.si_pid <;> simp [hq, h]

theorem drainMap_mem (zs : List siginfo_t) (m : RegMap) (s : siginfo_t)
    (h : s ∈ zs) : ((drainMap m zs).lookup s.si_pid).isSome = true := by
  induction zs generalizing m with
  | nil => cases h
  | cons z rest ih =>
    rcases List.mem_cons.mp h with h1 | h2
    · subst h1
      show ((drainMap (m.insert s.si_pid (ExitInfo.ofSiginfo s))
        rest).lookup s.si_pid).isSome = true
      apply drainMap_preserves
      rw [RegMap.lookup_insert]
      simp
    · exact ih (m.insert z.si_pid (ExitInfo.ofSiginfo z)) h2

theorem count_drainActs (zs : List siginfo_t) :
    List.count Action.waitidCall (drainActs zs) = zs.length + 1 := by
  induction zs with
  | nil => rfl
  | cons z rest ih =>
    show List.count Action.waitidCall
      (.waitidCall :: .insert z.si_pid (ExitInfo.ofSiginfo z) ::
        drainActs rest) = _
    rw [List.count_cons, List.count_cons, ih]
    simp

/-- C3: one wake cycle of the background loop whose signal read succeeds
and whose drain ends with the no-result answer performs the full drain:
the trace is one signal read, then one Wait Primitive call per returned
record plus the final no-result call, the registry receives one insertion
per record keyed by the pid the kernel reported in it, and afterwards
every zombie of the cycle has an entry in the registry before the loop
suspends again. -/
theorem reaper_cycle_drains_all (m : RegMap) (c : WakeCycle)
    (h1 : c.sigRead = .ok ()) (h2 : c.drainEnd = .ok ()) :
    Reaper.reapRun m [c] =
      (drainMap m c.zombies, .sigRead :: drainActs c.zombies, .ok ()) ∧
    List.count Action.waitidCall (drainActs c.zombies) =
      c.zombies.length + 1 ∧
    ∀ s ∈ c.zombies,
      ((drainMap m c.zombies).lookup s.si_pid).isSome = true := by
  refine ⟨?_, count_drainActs c.zombies,
    fun s hs => drainMap_mem c.zombies m s hs⟩
  simp [Reaper.reapRun, h1, h2]

theorem reaper_cycle_drains_all_witness :
    Reaper.reapRun ([] : RegMap)
        [{ sigRead := .ok (), zombies := [⟨5, 3, 0, 1, 0, 0⟩],
           drainEnd := .ok () }] =
      (drainMap ([] : RegMap) [⟨5, 3, 0, 1, 0, 0⟩],
        .sigRead :: drainActs [⟨5, 3, 0, 1, 0, 0⟩], .ok ()) ∧
    List.count Action.waitidCall (drainActs [⟨5, 3, 0, 1, 0, 0⟩]) = 2 ∧
    ∀ s ∈ [(⟨5, 3, 0, 1, 0, 0⟩ : siginfo_t)],
      ((drainMap ([] : RegMap) [⟨5, 3, 0, 1, 0, 0⟩]).lookup
        s.si_pid).isSome = true :=
  reaper_cycle_drains_all []
    { sigRead := .ok (), zombies := [⟨5, 3, 0, 1, 0, 0⟩],
      drainEnd := .ok () } rfl rfl

/-- C4: Reaper.wait has no error outcome and surfaces no spurious
resolution: whatever value it returns is the registry entry present for
the waited pid, and a resolution script of any number of spurious
answers followed by a genuine one returns exactly the present entry. -/
theorem reaper_wait_returns_present_entry (m : RegMap) (pid : Nat) :
    (∀ (script : List Bool) (v : ExitInfo),
      (Reaper.wait m pid script).1 = some v → m.lookup pid = some v) ∧
    (∀ (k : Nat) (rest : List Bool) (v : ExitInfo),
      m.lookup pid = some v →
      Reaper.wait m pid (List.replicate k true ++ false :: rest) =
        (some v, m)) := by
  constructor
  · intro script v h
    induction script with
    | nil => simp [Reaper.wait] at h
    | cons b rest ih =>
      cases b with
      | true => exact ih h
      | false =>
        cases hl : m.lookup pid with
        | none =>
          exact hl ▸ ih (by simpa [Reaper.wait, WaitMap.wait, hl] using h)
        | some v0 =>
          have h2 : some v0 = some v := by
            simpa [Reaper.wait, WaitMap.wait, hl] using h
          exact h2
  · intro k rest v hv
    induction k with
    | zero => simp [Reaper.wait, WaitMap.wait, hv]
    | succ n ih => simpa [List.replicate_succ] using ih

theorem reaper_wait_returns_present_entry_witness :
    Reaper.wait [(5, ⟨3, 0, 0, 0⟩)] 5
        (List.replicate 1 true ++ false :: []) =
      (some ⟨3, 0, 0, 0⟩, [(5, ⟨3, 0, 0, 0⟩)]) :=
  (reaper_wait_returns_present_entry [(5, ⟨3, 0, 0, 0⟩)] 5).2 1 []
    ⟨3, 0, 0, 0⟩ rfl

/-- C5: a Wait Primitive error inside the background loop ends the run
permanently: the run over any further wake cycles after the failing one
equals the run truncated at the failing cycle, so no signal read, Wait
Primitive call or insertion happens after the error; and when all cycles
before the failing one completed normally, the outcome of the whole run
is exactly that error. -/
theorem reaper_error_stops_loop (m : RegMap) (pre : List WakeCycle)
    (c : WakeCycle) (post : List WakeCycle) (e : Int)
    (h : c.drainEnd = .error e) :
    Reaper.reapRun m (pre ++ c :: post) = Reaper.reapRun m (pre ++ [c]) ∧
    ((∀ c2 ∈ pre, c2.sigRead = .ok () ∧ c2.drainEnd = .ok ()) →
      c.sigRead = .ok () →
      (Reaper.reapRun m (pre ++ c :: post)).2.2 = .error e) := by
  constructor
  · induction pre generalizing m with
    | nil =>
      simp only [List.nil_append]
      cases hs : c.sigRead with
      | error e2 => simp [Reaper.reapRun, hs]
      | ok u =>
        cases u
        simp [Reaper.reapRun, hs, h]
    | cons p ps ih =>
      simp only [List.cons_append]
      cases hs : p.sigRead with
      | error e2 => simp [Reaper.reapRun, hs]
      | ok u =>
        cases u
        cases hd : p.drainEnd with
        | error e2 => simp [Reaper.reapRun, hs, hd]
        | ok v =>
          cases v
          simp [Reaper.reapRun, hs, hd, ih]
  · induction pre generalizing m with
    | nil =>
      intro _ hsig
      simp [Reaper.reapRun, hsig, h]
    | cons p ps ih =>
      intro hpre hsig
      obtain ⟨hps, hpd⟩ := hpre p (by simp)
      have ih2 := ih (drainMap m p.zombies)
        (fun c2 hc2 => hpre c2 (by simp [hc2])) hsig
      simp only [List.cons_append]
      simp [Reaper.reapRun, hps, hpd]
      exact ih2

theorem reaper_error_stops_loop_witness :
    (Reaper.reapRun ([] : RegMap)
      [{ sigRead := .ok (), zombies := [], drainEnd := .error 4 },
       { sigRead := .ok (), zombies := [], drainEnd := .ok () }]).2.2 =
      .error 4 :=
  (reaper_error_stops_loop []
    [] { sigRead := .ok (), zombies := [], drainEnd := .error 4 }
    [{ sigRead := .ok (), zombies := [], drainEnd := .ok () }] 4 rfl).2
    (fun _ hc2 => nomatch hc2) rfl

/-- C8: waiting never mutates the registry: any number of Reaper.wait
calls, each with an arbitrary resolution script, leaves the registry
exactly as it was, so the entry waited for stays present and unchanged
and the entry of every other pid is unaffected. -/
theorem reaper_wait_preserves_registry (m : RegMap) (pid : Nat)
    (scripts : List (List Bool)) :
    List.foldl (fun acc s => (Reaper.wait acc pid s).2) m scripts = m ∧
    ∀ q : Nat,
      (List.foldl (fun acc s => (Reaper.wait acc pid s).2) m
        scripts).lookup q = m.lookup q := by
  have hone : ∀ (mm : RegMap) (s : List Bool),
      (Reaper.wait mm pid s).2 = mm := by
    intro mm s
    induction s with
    | nil => rfl
    | cons b rest ih =>
      cases b with
      | true => exact ih
      | false =>
        cases hl : mm.lookup pid with
        | none => simpa [Reaper.wait, WaitMap.wait, hl] using ih
        | some v => simp [Reaper.wait, WaitMap.wait, hl]
  have hfold : List.foldl (fun acc s => (Reaper.wait acc pid s).2) m
      scripts = m := by
    induction scripts generalizing m with
    | nil => rfl
    | cons s ss ih =>
      simp only [List.foldl_cons]
      rw [hone]
      exact ih m
  exact ⟨hfold, fun q => by rw [hfold]⟩

end children_reaper

/-- C7: after readiness has been observed and the descriptor-scoped Wait
Primitive call succeeds, an empty result makes waitpid panic — an outcome
distinct by constructor from every ordinary return and from the ordinary
no-result answer of the Wait Primitive — and under the precondition that
a reapable record exists and decodes, waitpid returns the decoded
record. -/
theorem waitpid_after_readiness (call : WaitidCall)
    (hret : 0 ≤ call.ret) :
    (call.info.si_pid = 0 →
      pid_fd.PidFd.waitpid (.ok ()) call = .panicked) ∧
    (∀ info : pid_fd.ExitInfo, call.info.si_pid ≠ 0 →
      pid_fd.ExitInfo.new call.info = some info →
      pid_fd.PidFd.waitpid (.ok ()) call = .ok info) := by
  have hnl : ¬ call.ret < 0 := by omega
  constructor
  · intro hp
    simp [pid_fd.PidFd.waitpid, pid_fd.waitid, hnl, hp]
  · intro info hp hdec
    simp [pid_fd.PidFd.waitpid, pid_fd.waitid, hnl, hp, hdec]

theorem waitpid_after_readiness_witness :
    pid_fd.PidFd.waitpid (.ok ()) ⟨0, 0, ⟨5, 3, 7, 1, 0, 0⟩⟩ =
      .ok ⟨3, .Exited 7⟩ :=
  (waitpid_after_readiness ⟨0, 0, ⟨5, 3, 7, 1, 0, 0⟩⟩ (by decide)).2
    ⟨3, .Exited 7⟩ (by decide) (by decide)
